import Mathlib

set_option maxHeartbeats 1000000

namespace Retry

/-- Model of the Go error values this library manipulates: leaf errors created
by errors.New (`basic`), the package-level sentinel `errNonRetryable` from
src/errors.go, values implementing the net.Error interface with a given
Timeout() result (as a leaf, or with an Unwrap method exposing a cause), and
the single-cause wrapper produced by fmt.Errorf with one %w verb (a
fmt.wrapError, which is not itself a net.Error). -/
inductive GoError : Type where
  | errNonRetryable : GoError
  | basic : String → GoError
  | netTimeout : String → Bool → GoError
  | netWrap : String → Bool → GoError → GoError
  | wrap : String → GoError → GoError
deriving DecidableEq

/-- The Error() string of a modelled Go error. Wrapper errors store the full
message computed at construction time (fmt.Errorf renders it eagerly). -/
def errorMsg : GoError → String
  | .errNonRetryable => "non-retryable error"
  | .basic m => m
  | .netTimeout m _ => m
  | .netWrap m _ _ => m
  | .wrap m _ => m

/-- Go errors.Unwrap: the cause when the error implements Unwrap, none
otherwise. -/
def goUnwrap : GoError → Option GoError
  | .wrap _ c => some c
  | .netWrap _ _ c => some c
  | _ => none

/-- Go errors.Is: walk the Unwrap chain comparing each error against the
target with Go equality. -/
def errorsIs (err target : GoError) : Bool :=
  if err = target then true
  else
    match err with
    | .wrap _ c => errorsIs c target
    | .netWrap _ _ c => errorsIs c target
    | _ => false

/-- Go errors.As specialised to the net.Error target: the Timeout() value of
the first error along the Unwrap chain that implements net.Error, if any. -/
def asNetError : GoError → Option Bool
  | .netTimeout _ t => some t
  | .netWrap _ t _ => some t
  | .wrap _ c => asNetError c
  | _ => none

/-- src/errors.go NonRetryable: fmt.Errorf("%w: %v", errNonRetryable, err).
Only the sentinel is given under %w, so only it enters the Unwrap chain; the
original error contributes its Error() string via %v. -/
def NonRetryable (err : GoError) : GoError :=
  .wrap ("non-retryable error: " ++ errorMsg err) .errNonRetryable

/-- src/errors.go isRetryable: errors.As to net.Error and Timeout() first,
otherwise the negation of errors.Is against the sentinel. -/
def isRetryable (err : GoError) : Bool :=
  match asNetError err with
  | some t => if t then true else ! errorsIs err .errNonRetryable
  | none => ! errorsIs err .errNonRetryable

/-- Two's-complement wrap of a mathematical integer into int64 range,
modelling Go's fixed-width arithmetic on time.Duration (an int64 count of
nanoseconds). -/
def wrap64 (n : Int) : Int :=
  (n + 2 ^ 63) % 2 ^ 64 - 2 ^ 63

/-- Go math/rand Int63n: panics (modelled as none) when n ≤ 0, otherwise a
uniformly random value in [0, n); the caller-supplied choice selects which
value is drawn. -/
def randInt63n (n : Int) (choice : Nat) : Option Int :=
  if n ≤ 0 then none else some ((choice : Int) % n)

/-- src/options.go ExpBackoffWithJitter (the closure it returns):
expBackoff = baseDelay * (1 << attempt) in wrapping int64 arithmetic, jitter
drawn by rand.Int63n from [0, expBackoff/5) with Go's truncating division,
sum clamped to maxDelay. none models the rand.Int63n panic on a
non-positive bound. -/
def ExpBackoffWithJitter (attempt : Nat) (baseDelay maxDelay : Int) (choice : Nat) : Option Int :=
  let expBackoff := wrap64 (baseDelay * wrap64 (2 ^ attempt))
  match randInt63n (Int.tdiv expBackoff 5) choice with
  | none => none
  | some jitter =>
      let finalDelay := wrap64 (expBackoff + jitter)
      some (if maxDelay < finalDelay then maxDelay else finalDelay)

/-- src/retry.go DelayTypeFunc: (attempt, baseDelay, maxDelay) → delay.
Durations are int64 nanosecond counts. (The jitter strategy is modelled
separately above because it additionally consumes a random draw and can
panic.) -/
def DelayTypeFunc : Type := Int → Int → Int → Int

/-- src/options.go FixedDelay: ignore the attempt and max, return baseDelay. -/
def FixedDelay : DelayTypeFunc := fun _ baseDelay _ => baseDelay

/-- src/retry.go RetryConfig. The logger field is an external collaborator
with no influence on control flow and is not modelled. delayType is optional
because Do guards the call with a nil check. -/
structure RetryConfig where
  attempts : Int
  baseDelay : Int
  maxDelay : Int
  delayType : Option DelayTypeFunc

/-- src/options.go WithAttempts: assigns the field with no validation. -/
def WithAttempts (attempts : Int) : RetryConfig → RetryConfig :=
  fun rc => { rc with attempts := attempts }

/-- src/options.go WithDelay. -/
def WithDelay (delay : Int) : RetryConfig → RetryConfig :=
  fun rc => { rc with baseDelay := delay }

/-- src/options.go WithMaxDelay. -/
def WithMaxDelay (maxDelay : Int) : RetryConfig → RetryConfig :=
  fun rc => { rc with maxDelay := maxDelay }

/-- src/options.go WithDelayType. -/
def WithDelayType (delayType : DelayTypeFunc) : RetryConfig → RetryConfig :=
  fun rc => { rc with delayType := some delayType }

/-- src/retry.go NewRetry: defaults (3 attempts, 100ms base delay, 1s max
delay, fixed strategy) and then the options applied in order. -/
def NewRetry (opts : List (RetryConfig → RetryConfig)) : RetryConfig :=
  opts.foldl (fun rc opt => opt rc)
    { attempts := 3, baseDelay := 100000000, maxDelay := 1000000000,
      delayType := some FixedDelay }

/-- Observable outcome of one Do run: the returned (data, err) pair, plus
instrumentation recording how many times the operation was invoked and the
argument triples (attempt, baseDelay, maxDelay) passed to the configured
delay strategy. -/
structure DoResult (Res : Type) where
  data : Option Res
  err : Option GoError
  invocations : Nat
  delayCalls : List (Int × Int × Int)

/-- fmt.Errorf("all attempts failed, the last error: %w", lastErr): when
lastErr is nil the %w verb matches no error, so nothing is wrapped and the
badverb form is printed instead. -/
def wrapAllFailed : Option GoError → GoError
  | some e => .wrap ("all attempts failed, the last error: " ++ errorMsg e) e
  | none => .basic "all attempts failed, the last error: %!w(<nil>)"

/-- The for-loop body of RetryConfig.Do from src/retry.go. cd i models the
non-blocking ctx.Done() poll observed at the top of attempt i; ce models
ctx.Err(); op i is the (data, err) pair the retry function returns when
invoked on attempt i. invs and dcalls accumulate the instrumentation. -/
def doLoop {Res : Type} (rc : RetryConfig) (cd : Int → Bool) (ce : GoError)
    (op : Int → Res × Option GoError) (attempt : Int) (lastErr : Option GoError)
    (invs : Nat) (dcalls : List (Int × Int × Int)) : DoResult Res :=
  if hle : attempt ≤ rc.attempts then
    if cd attempt then
      { data := none, err := some ce, invocations := invs, delayCalls := dcalls }
    else
      match (op attempt).2 with
      | none =>
          { data := some (op attempt).1, err := none,
            invocations := invs + 1, delayCalls := dcalls }
      | some e =>
          if ! isRetryable e then
            { data := none,
              err := some (.wrap ("non-retryable error: " ++ errorMsg e) e),
              invocations := invs + 1, delayCalls := dcalls }
          else if attempt ≠ rc.attempts then
            doLoop rc cd ce op (attempt + 1) lastErr (invs + 1)
              (dcalls ++ (match rc.delayType with
                          | some _ => [(attempt, rc.baseDelay, rc.maxDelay)]
                          | none => []))
          else
            doLoop rc cd ce op (attempt + 1) (some e) (invs + 1) dcalls
  else
    { data := none, err := some (wrapAllFailed lastErr),
      invocations := invs, delayCalls := dcalls }
termination_by (rc.attempts + 1 - attempt).toNat
decreasing_by
all_goals simp_wf
all_goals omega

/-- src/retry.go RetryConfig.Do: run the loop from attempt 1 with lastErr
nil. -/
def Do {Res : Type} (rc : RetryConfig) (cd : Int → Bool) (ce : GoError)
    (op : Int → Res × Option GoError) : DoResult Res :=
  doLoop rc cd ce op 1 none 0 []

/-- The delay-strategy call trace Do produces over n consecutive retried
attempts starting at attempt a: one (attempt, baseDelay, maxDelay) triple per
attempt when a strategy is configured, nothing when delayType is nil. -/
def delayTrace (rc : RetryConfig) (a : Int) : Nat → List (Int × Int × Int)
  | 0 => []
  | n + 1 =>
      (match rc.delayType with
       | some _ => [(a, rc.baseDelay, rc.maxDelay)]
       | none => []) ++ delayTrace rc (a + 1) n

/-- The error-classification policy as worded in the spec, section 4.1: the
timeout capability is checked first and wins, then the sentinel marker in the
cause chain forces non-retryable, and everything else defaults to retryable.
Stated separately from isRetryable so the code can be proved to refine the
spec's check order. -/
def isRetryableSpec (err : GoError) : Bool :=
  if asNetError err = some true then true
  else if errorsIs err GoError.errNonRetryable then false
  else true

theorem delayTrace_mem (rc : RetryConfig) :
    ∀ (n : Nat) (a : Int) (x : Int × Int × Int), x ∈ delayTrace rc a n →
      a ≤ x.1 ∧ x.1 < a + n ∧ x.2.1 = rc.baseDelay ∧ x.2.2 = rc.maxDelay := by
  intro n
  induction n with
  | zero => intro a x hx; simp [delayTrace] at hx
  | succ n ih =>
      intro a x hx
      simp only [delayTrace, List.mem_append] at hx
      rcases hx with hx | hx
      · rcases hdt : rc.delayType with _ | f <;> rw [hdt] at hx <;> simp at hx
        subst hx
        exact ⟨le_refl a, by omega, rfl, rfl⟩
      · have := ih (a + 1) x hx
        refine ⟨by omega, by omega, this.2.2.1, this.2.2.2⟩

theorem delayTrace_eq_map (rc : RetryConfig) (f : DelayTypeFunc)
    (hdt : rc.delayType = some f) :
    ∀ (n : Nat) (a : Int), delayTrace rc a n =
      (List.range n).map (fun j : Nat => (a + (j : Int), rc.baseDelay, rc.maxDelay)) := by
  intro n
  induction n with
  | zero => intro a; simp [delayTrace]
  | succ n ih =>
      intro a
      rw [delayTrace, hdt, ih (a + 1), List.range_succ_eq_map, List.map_cons, List.map_map,
        List.singleton_append]
      congr 1
      · simp
      · apply List.map_congr_left
        intro j _
        simp only [Function.comp_apply, Prod.mk.injEq]
        refine ⟨by push_cast; omega, trivial⟩

theorem doLoop_allFail {Res : Type} (rc : RetryConfig) (cd : Int → Bool) (ce : GoError)
    (op : Int → Res × Option GoError) (e : Int → GoError)
    (hcd : ∀ i, cd i = false)
    (hop : ∀ i, (op i).2 = some (e i))
    (hre : ∀ i, isRetryable (e i) = true) :
    ∀ (k : Nat) (attempt : Int) (invs : Nat) (dcalls : List (Int × Int × Int))
      (lastErr : Option GoError),
      attempt ≤ rc.attempts → (rc.attempts + 1 - attempt).toNat = k →
      doLoop rc cd ce op attempt lastErr invs dcalls =
        { data := none,
          err := some (wrapAllFailed (some (e rc.attempts))),
          invocations := invs + k,
          delayCalls := dcalls ++ delayTrace rc attempt (k - 1) } := by
  intro k
  induction k with
  | zero =>
      intro attempt invs dcalls lastErr hle hk
      omega
  | succ k ih =>
      intro attempt invs dcalls lastErr hle hk
      rw [doLoop, dif_pos hle, hcd attempt]
      simp only [Bool.false_eq_true, if_false, hop attempt, hre attempt, Bool.not_true,
        ite_false]
      by_cases hat : attempt = rc.attempts
      · have hk0 : k = 0 := by omega
        subst hk0
        rw [if_neg (by simp [hat])]
        rw [doLoop, dif_neg (by omega)]
        subst hat
        simp [delayTrace]
      · rw [if_pos hat]
        have hle2 : attempt + 1 ≤ rc.attempts := by
          rcases lt_or_eq_of_le hle with h | h
          · omega
          · exact absurd h hat
        have hk2 : (rc.attempts + 1 - (attempt + 1)).toNat = k := by omega
        rw [ih (attempt + 1) (invs + 1) _ lastErr hle2 hk2]
        obtain ⟨k0, rfl⟩ : ∃ k0, k = k0 + 1 := ⟨k - 1, by omega⟩
        simp [delayTrace, List.append_assoc]
        omega

theorem doLoop_succAt {Res : Type} (rc : RetryConfig) (cd : Int → Bool) (ce : GoError)
    (op : Int → Res × Option GoError) (e : Int → GoError) (k : Int)
    (hcd : ∀ i, cd i = false)
    (hks : (op k).2 = none)
    (hkA : k ≤ rc.attempts) :
    ∀ (n : Nat) (attempt : Int) (invs : Nat) (dcalls : List (Int × Int × Int))
      (lastErr : Option GoError),
      attempt ≤ k → (k - attempt).toNat = n →
      (∀ i, attempt ≤ i → i < k → (op i).2 = some (e i) ∧ isRetryable (e i) = true) →
      doLoop rc cd ce op attempt lastErr invs dcalls =
        { data := some (op k).1, err := none, invocations := invs + n + 1,
          delayCalls := dcalls ++ delayTrace rc attempt n } := by
  intro n
  induction n with
  | zero =>
      intro attempt invs dcalls lastErr hak hn _
      have : attempt = k := by omega
      subst this
      rw [doLoop, dif_pos (by omega), hcd attempt]
      simp [hks, delayTrace]
  | succ n ih =>
      intro attempt invs dcalls lastErr hak hn hfail
      have hlt : attempt < k := by omega
      obtain ⟨hopa, hrea⟩ := hfail attempt le_rfl hlt
      rw [doLoop, dif_pos (by omega), hcd attempt]
      simp only [Bool.false_eq_true, if_false, hopa, hrea, Bool.not_true, ite_false]
      rw [if_pos (by omega : attempt ≠ rc.attempts)]
      rw [ih (attempt + 1) (invs + 1) _ lastErr (by omega) (by omega)
            (fun i h1 h2 => hfail i (by omega) h2)]
      simp [delayTrace, List.append_assoc]
      omega

theorem doLoop_cancelAt {Res : Type} (rc : RetryConfig) (cd : Int → Bool) (ce : GoError)
    (op : Int → Res × Option GoError) (e : Int → GoError) (k : Int)
    (hcdk : cd k = true)
    (hkA : k ≤ rc.attempts) :
    ∀ (n : Nat) (attempt : Int) (invs : Nat) (dcalls : List (Int × Int × Int))
      (lastErr : Option GoError),
      attempt ≤ k → (k - attempt).toNat = n →
      (∀ i, attempt ≤ i → i < k → cd i = false) →
      (∀ i, attempt ≤ i → i < k → (op i).2 = some (e i) ∧ isRetryable (e i) = true) →
      doLoop rc cd ce op attempt lastErr invs dcalls =
        { data := none, err := some ce, invocations := invs + n,
          delayCalls := dcalls ++ delayTrace rc attempt n } := by
  intro n
  induction n with
  | zero =>
      intro attempt invs dcalls lastErr hak hn _ _
      have : attempt = k := by omega
      subst this
      rw [doLoop, dif_pos (by omega), hcdk]
      simp [delayTrace]
  | succ n ih =>
      intro attempt invs dcalls lastErr hak hn hcdf hfail
      have hlt : attempt < k := by omega
      obtain ⟨hopa, hrea⟩ := hfail attempt le_rfl hlt
      rw [doLoop, dif_pos (by omega), hcdf attempt le_rfl hlt]
      simp only [Bool.false_eq_true, if_false, hopa, hrea, Bool.not_true, ite_false]
      rw [if_pos (by omega : attempt ≠ rc.attempts)]
      rw [ih (attempt + 1) (invs + 1) _ lastErr (by omega) (by omega)
            (fun i h1 h2 => hcdf i (by omega) h2)
            (fun i h1 h2 => hfail i (by omega) h2)]
      simp [delayTrace, List.append_assoc]
      omega

/-- Claim C1, counterexample: the claim predicts that classifying
NonRetryable(e) for a timeout-reporting net.Error e yields retryable, but the
code yields non-retryable, because NonRetryable formats e with the %v verb and
e never enters the Unwrap chain that errors.As inspects. -/
theorem nonRetryable_timeout_counterexample :
    isRetryable (NonRetryable (GoError.netTimeout "i/o timeout" true)) = false := by decide

/-- Claim C1 (amended): for every error e, classifying NonRetryable(e) yields
non-retryable, with no timeout exception: the wrapped value unwraps only to
the sentinel, so the timeout capability of e is invisible to isRetryable. -/
theorem nonRetryable_always_nonretryable (e : GoError) :
    isRetryable (NonRetryable e) = false := by
  simp [NonRetryable, isRetryable, asNetError, errorsIs]

/-- Claim C2: evaluating the code at the failing inputs. With attemptIndex = 0
and baseDelay = 4ns the jitter bound expBackoff/5 is 0 and rand.Int63n panics
instead of returning; with attemptIndex = 63 and baseDelay = 100ms the
multiplication wraps to 0 in int64 and rand.Int63n panics as well, instead of
saturating toward maxDelay. -/
theorem expBackoff_panics :
    ExpBackoffWithJitter 0 4 4 0 = none ∧
    ExpBackoffWithJitter 63 100000000 1000000000 0 = none := by
  constructor
  · decide
  · decide

/-- Claim C3, counterexample: the claim predicts that the cause chain of
NonRetryable(e) contains e itself, but for e = errors.New("fatal") the chain
holds only the wrapper and the sentinel, because e is rendered with %v rather
than wrapped with %w. -/
theorem nonRetryable_chain_counterexample :
    errorsIs (NonRetryable (GoError.basic "fatal")) (GoError.basic "fatal") = false := by decide

/-- Claim C3 (amended): NonRetryable(e) produces an error whose cause chain
contains the non-retryable sentinel (its sole unwrap target), while the
original error e is preserved only as formatted text inside the message, not
as an inspectable cause. -/
theorem nonRetryable_sentinel_and_message (e : GoError) :
    errorsIs (NonRetryable e) GoError.errNonRetryable = true ∧
    goUnwrap (NonRetryable e) = some GoError.errNonRetryable ∧
    errorMsg (NonRetryable e) = "non-retryable error: " ++ errorMsg e := by
  refine ⟨?_, rfl, rfl⟩
  simp [NonRetryable, errorsIs]

/-- Claim C4: with maxAttempts = n ≥ 1, no cancellation, and an operation that
fails with a retryable error on every invocation, Do invokes the operation
exactly n times and returns nil data together with an error wrapping the
error of the n-th invocation under the "all attempts failed" explanation. -/
theorem do_exhausts_attempts {Res : Type} (rc : RetryConfig) (cd : Int → Bool) (ce : GoError)
    (op : Int → Res × Option GoError) (e : Int → GoError) (n : Int)
    (hn : rc.attempts = n) (h1 : 1 ≤ n)
    (hcd : ∀ i, cd i = false)
    (hop : ∀ i, (op i).2 = some (e i))
    (hre : ∀ i, isRetryable (e i) = true) :
    (Do rc cd ce op).invocations = n.toNat ∧
    (Do rc cd ce op).data = none ∧
    (Do rc cd ce op).err =
      some (GoError.wrap ("all attempts failed, the last error: " ++ errorMsg (e n)) (e n)) := by
  subst hn
  have h := doLoop_allFail rc cd ce op e hcd hop hre rc.attempts.toNat 1 0 [] none
    (by omega) (by omega)
  unfold Do
  rw [h]
  refine ⟨by simp, rfl, ?_⟩
  simp [wrapAllFailed]

/-- Claim C4, witness: the default config (3 attempts) with an operation that
always fails retryably runs exactly 3 invocations and wraps the last error. -/
theorem do_exhausts_attempts_witness :
    (Do (NewRetry []) (fun _ => false) (GoError.basic "context canceled")
        (fun _ => ((), some (GoError.basic "boom")))).invocations = (3 : Int).toNat ∧
    (Do (NewRetry []) (fun _ => false) (GoError.basic "context canceled")
        (fun _ => ((), some (GoError.basic "boom")))).data = none ∧
    (Do (NewRetry []) (fun _ => false) (GoError.basic "context canceled")
        (fun _ => ((), some (GoError.basic "boom")))).err =
      some (GoError.wrap ("all attempts failed, the last error: " ++
              errorMsg (GoError.basic "boom")) (GoError.basic "boom")) :=
  do_exhausts_attempts (NewRetry []) (fun _ => false) (GoError.basic "context canceled")
    (fun _ => ((), some (GoError.basic "boom"))) (fun _ => GoError.basic "boom") 3
    rfl (by norm_num) (fun _ => rfl) (fun _ => rfl) (fun _ => rfl)

/-- Claim C5: isRetryable applies its checks in the spec's order — timeout
capability first (winning even over the sentinel marker), then sentinel in
the cause chain, then default retryable — and being a total Lean function it
is pure and never fails. -/
theorem isRetryable_refines_spec (e : GoError) : isRetryable e = isRetryableSpec e := by
  unfold isRetryable isRetryableSpec
  rcases h : asNetError e with _ | t
  · simp only [h, reduceCtorEq, if_false]
    cases herr : errorsIs e GoError.errNonRetryable <;> simp [herr]
  · cases t
    · simp only [h, Option.some.injEq, Bool.false_eq_true, if_false, if_true]
      cases herr : errorsIs e GoError.errNonRetryable <;> simp [herr]
    · simp [h]

/-- Claim C6: with no cancellation, retryable failures on attempts 1..k-1 and
success on attempt k ≤ maxAttempts, Do invokes the operation exactly k times,
returns the resource of attempt k with nil error, and every delay-strategy
call happened at an attempt strictly before k (none after the success). -/
theorem do_success_stops {Res : Type} (rc : RetryConfig) (cd : Int → Bool) (ce : GoError)
    (op : Int → Res × Option GoError) (e : Int → GoError) (k : Int)
    (h1 : 1 ≤ k) (hk : k ≤ rc.attempts)
    (hcd : ∀ i, cd i = false)
    (hfail : ∀ i, 1 ≤ i → i < k → (op i).2 = some (e i) ∧ isRetryable (e i) = true)
    (hsucc : (op k).2 = none) :
    (Do rc cd ce op).invocations = k.toNat ∧
    (Do rc cd ce op).data = some (op k).1 ∧
    (Do rc cd ce op).err = none ∧
    ∀ x ∈ (Do rc cd ce op).delayCalls, 1 ≤ x.1 ∧ x.1 < k := by
  have h := doLoop_succAt rc cd ce op e k hcd hsucc hk ((k - 1).toNat) 1 0 [] none
    (by omega) (by omega) hfail
  unfold Do
  rw [h]
  refine ⟨by simp; omega, rfl, rfl, ?_⟩
  intro x hx
  simp only [List.nil_append] at hx
  have hm := delayTrace_mem rc ((k - 1).toNat) 1 x hx
  refine ⟨hm.1, by omega⟩

/-- Claim C6, witness: default config, failure on attempt 1, success on
attempt 2: two invocations, the attempt-2 resource, nil error, and every
delay computation at an attempt before 2. -/
theorem do_success_stops_witness :
    (Do (NewRetry []) (fun _ => false) (GoError.basic "context canceled")
        (fun i => ((), if i = 2 then none else some (GoError.basic "boom")))).invocations =
      (2 : Int).toNat ∧
    (Do (NewRetry []) (fun _ => false) (GoError.basic "context canceled")
        (fun i => ((), if i = 2 then none else some (GoError.basic "boom")))).data = some () ∧
    (Do (NewRetry []) (fun _ => false) (GoError.basic "context canceled")
        (fun i => ((), if i = 2 then none else some (GoError.basic "boom")))).err = none ∧
    ∀ x ∈ (Do (NewRetry []) (fun _ => false) (GoError.basic "context canceled")
        (fun i => ((), if i = 2 then none else some (GoError.basic "boom")))).delayCalls,
      1 ≤ x.1 ∧ x.1 < 2 :=
  do_success_stops (NewRetry []) (fun _ => false) (GoError.basic "context canceled")
    (fun i => ((), if i = 2 then none else some (GoError.basic "boom")))
    (fun _ => GoError.basic "boom") 2 (by norm_num) (by decide) (fun _ => rfl)
    (fun i hi1 hi2 => by
      have hi : i = 1 := by omega
      subst hi
      exact ⟨rfl, rfl⟩)
    rfl

/-- Claim C7: the cancellation poll precedes the operation on every attempt.
If the polls of attempts 1..k-1 see no cancellation and the poll of attempt
k ≤ maxAttempts sees it, Do performs exactly k-1 invocations — in particular
zero when the signal is raised before the first attempt — and returns nil
data with the cancellation cause as the error. -/
theorem do_cancellation_first {Res : Type} (rc : RetryConfig) (cd : Int → Bool) (ce : GoError)
    (op : Int → Res × Option GoError) (e : Int → GoError) (k : Int)
    (h1 : 1 ≤ k) (hk : k ≤ rc.attempts)
    (hcdf : ∀ i, 1 ≤ i → i < k → cd i = false) (hcdk : cd k = true)
    (hfail : ∀ i, 1 ≤ i → i < k → (op i).2 = some (e i) ∧ isRetryable (e i) = true) :
    (Do rc cd ce op).invocations = k.toNat - 1 ∧
    (Do rc cd ce op).data = none ∧
    (Do rc cd ce op).err = some ce := by
  have h := doLoop_cancelAt rc cd ce op e k hcdk hk ((k - 1).toNat) 1 0 [] none
    (by omega) (by omega) hcdf hfail
  unfold Do
  rw [h]
  exact ⟨by simp, rfl, rfl⟩

/-- Claim C7, witness: a signal already raised before the first attempt gives
zero invocations and the cancellation cause. -/
theorem do_cancellation_first_witness :
    (Do (NewRetry []) (fun _ => true) (GoError.basic "context canceled")
        (fun _ => ((), some (GoError.basic "boom")))).invocations = (1 : Int).toNat - 1 ∧
    (Do (NewRetry []) (fun _ => true) (GoError.basic "context canceled")
        (fun _ => ((), some (GoError.basic "boom")))).data = none ∧
    (Do (NewRetry []) (fun _ => true) (GoError.basic "context canceled")
        (fun _ => ((), some (GoError.basic "boom")))).err =
      some (GoError.basic "context canceled") :=
  do_cancellation_first (NewRetry []) (fun _ => true) (GoError.basic "context canceled")
    (fun _ => ((), some (GoError.basic "boom"))) (fun _ => GoError.basic "boom") 1
    (by norm_num) (by decide)
    (fun i hi1 hi2 => absurd (hi1.trans_lt hi2) (lt_irrefl 1))
    rfl
    (fun i hi1 hi2 => absurd (hi1.trans_lt hi2) (lt_irrefl 1))

/-- Claim C8: with a configured delay strategy and an always-retryably-failing
operation over n attempts, the delay strategy is called exactly once per
attempt i with attempts remaining, in order, with arguments
(i, baseDelay, maxDelay) where i is the 1-based current attempt count — the
first inter-attempt delay is computed with attempt index 1, not 0. -/
theorem do_delay_arguments {Res : Type} (rc : RetryConfig) (cd : Int → Bool) (ce : GoError)
    (op : Int → Res × Option GoError) (e : Int → GoError) (n : Int) (f : DelayTypeFunc)
    (hn : rc.attempts = n) (h1 : 1 ≤ n) (hdt : rc.delayType = some f)
    (hcd : ∀ i, cd i = false)
    (hop : ∀ i, (op i).2 = some (e i))
    (hre : ∀ i, isRetryable (e i) = true) :
    (Do rc cd ce op).delayCalls =
      (List.range (n.toNat - 1)).map
        (fun j : Nat => (1 + (j : Int), rc.baseDelay, rc.maxDelay)) := by
  subst hn
  have h := doLoop_allFail rc cd ce op e hcd hop hre rc.attempts.toNat 1 0 [] none
    (by omega) (by omega)
  unfold Do
  rw [h]
  simp only [List.nil_append]
  rw [delayTrace_eq_map rc f hdt]

/-- Claim C8, witness: default config (3 attempts, fixed strategy) — the
strategy is called at attempts 1 and 2 with the config's base and max
delays. -/
theorem do_delay_arguments_witness :
    (Do (NewRetry []) (fun _ => false) (GoError.basic "context canceled")
        (fun _ => ((), some (GoError.basic "boom")))).delayCalls =
      (List.range ((3 : Int).toNat - 1)).map
        (fun j : Nat => (1 + (j : Int), (NewRetry []).baseDelay, (NewRetry []).maxDelay)) :=
  do_delay_arguments (NewRetry []) (fun _ => false) (GoError.basic "context canceled")
    (fun _ => ((), some (GoError.basic "boom"))) (fun _ => GoError.basic "boom") 3 FixedDelay
    rfl (by norm_num) rfl (fun _ => rfl) (fun _ => rfl) (fun _ => rfl)

/-- Claim C9: the jitter strategy at baseDelay = 100ms, maxDelay = 300ms,
attempt 2 returns exactly 300ms on every draw (the pre-clamp range
[400ms, 480ms) is clamped to maxDelay), and at baseDelay = 100ms,
maxDelay = 1000ms, attempt 3 it returns a value in [800ms, 960ms). -/
theorem expBackoff_examples : ∀ choice : Nat,
    ExpBackoffWithJitter 2 100000000 300000000 choice = some 300000000 ∧
    ∃ d, ExpBackoffWithJitter 3 100000000 1000000000 choice = some d ∧
         800000000 ≤ d ∧ d < 960000000 := by
  intro choice
  obtain ⟨hj2a, hj2b⟩ : 0 ≤ (choice : Int) % 80000000 ∧ (choice : Int) % 80000000 < 80000000 :=
    ⟨Int.emod_nonneg _ (by norm_num), Int.emod_lt_of_pos _ (by norm_num)⟩
  obtain ⟨hj3a, hj3b⟩ : 0 ≤ (choice : Int) % 160000000 ∧ (choice : Int) % 160000000 < 160000000 :=
    ⟨Int.emod_nonneg _ (by norm_num), Int.emod_lt_of_pos _ (by norm_num)⟩
  constructor
  · simp only [ExpBackoffWithJitter, randInt63n]
    have hw1 : wrap64 ((2:Int) ^ (2:Nat)) = 4 := by decide
    have hw2 : wrap64 ((100000000:Int) * 4) = 400000000 := by decide
    have ht : Int.tdiv (400000000:Int) 5 = 80000000 := by decide
    simp only [hw1, hw2, ht]
    rw [if_neg (by norm_num : ¬ (80000000:Int) ≤ 0)]
    have hw3 : wrap64 (400000000 + (choice : Int) % 80000000) =
        400000000 + (choice : Int) % 80000000 := by
      unfold wrap64
      omega
    simp only [hw3]
    rw [if_pos (by omega : (300000000:Int) < 400000000 + (choice : Int) % 80000000)]
  · refine ⟨800000000 + (choice : Int) % 160000000, ?_, by omega, by omega⟩
    simp only [ExpBackoffWithJitter, randInt63n]
    have hw1 : wrap64 ((2:Int) ^ (3:Nat)) = 8 := by decide
    have hw2 : wrap64 ((100000000:Int) * 8) = 800000000 := by decide
    have ht : Int.tdiv (800000000:Int) 5 = 160000000 := by decide
    simp only [hw1, hw2, ht]
    rw [if_neg (by norm_num : ¬ (160000000:Int) ≤ 0)]
    have hw3 : wrap64 (800000000 + (choice : Int) % 160000000) =
        800000000 + (choice : Int) % 160000000 := by
      unfold wrap64
      omega
    simp only [hw3]
    rw [if_neg (by omega : ¬ (1000000000:Int) < 800000000 + (choice : Int) % 160000000)]

/-- Claim C10: a config whose attempts value is non-positive (constructible
via WithAttempts, which does not validate) makes Do skip the loop entirely:
zero invocations, nil data, and a non-nil "all attempts failed" error whose
%w operand was the nil lastErr, so the error wraps nothing. -/
theorem do_nonpositive_attempts {Res : Type} (rc : RetryConfig) (cd : Int → Bool) (ce : GoError)
    (op : Int → Res × Option GoError)
    (hneg : rc.attempts ≤ 0) (hcd : ∀ i, cd i = false) :
    (Do rc cd ce op).invocations = 0 ∧
    (Do rc cd ce op).data = none ∧
    (Do rc cd ce op).err =
      some (GoError.basic "all attempts failed, the last error: %!w(<nil>)") ∧
    goUnwrap (GoError.basic "all attempts failed, the last error: %!w(<nil>)") = none := by
  unfold Do
  rw [doLoop, dif_neg (by omega)]
  exact ⟨rfl, rfl, rfl, rfl⟩

/-- Claim C10, witness: NewRetry(WithAttempts(0)) is constructed without
validation and Do returns the nil-wrapping exhaustion error after zero
invocations. -/
theorem do_nonpositive_attempts_witness :
    (Do (NewRetry [WithAttempts 0]) (fun _ => false) (GoError.basic "context canceled")
        (fun _ => ((), some (GoError.basic "boom")))).invocations = 0 ∧
    (Do (NewRetry [WithAttempts 0]) (fun _ => false) (GoError.basic "context canceled")
        (fun _ => ((), some (GoError.basic "boom")))).data = none ∧
    (Do (NewRetry [WithAttempts 0]) (fun _ => false) (GoError.basic "context canceled")
        (fun _ => ((), some (GoError.basic "boom")))).err =
      some (GoError.basic "all attempts failed, the last error: %!w(<nil>)") ∧
    goUnwrap (GoError.basic "all attempts failed, the last error: %!w(<nil>)") = none :=
  do_nonpositive_attempts (NewRetry [WithAttempts 0]) (fun _ => false)
    (GoError.basic "context canceled") (fun _ => ((), some (GoError.basic "boom")))
    (by decide) (fun _ => rfl)

end Retry
